import Mathlib

/-!
Verification of the bounded connection-pool manager specified for
`examples/python/connect_tcp.py` (AlloyDB SQLAlchemy sample).

The repository source contains only the configuration call site
(`connect_tcp_socket`), which fixes the pool policy constants
(pool_size=5, max_overflow=2, pool_timeout=30, pool_recycle=1800) and
builds the engine URL from five environment variables.  The pool
mechanism itself (checkout / checkin / waiters / shutdown) lives in the
external SQLAlchemy library, so it is modelled here from the
specification's §3-§4 design and verified against the spec's claims.
`connect_tcp_socket` itself is embedded directly from the source.
-/

namespace Pool

/-- Modelled from the spec: pool policy configuration (§3 Pool attributes).
`core_size` permanent capacity, `max_overflow` temporary extra capacity,
`checkout_timeout` max wait in seconds, `max_lifetime` recycle age. -/
structure PoolConfig where
  coreSize : Nat
  maxOverflow : Nat
  checkoutTimeout : Nat
  maxLifetime : Nat
deriving Repr, DecidableEq

/-- Total capacity: `core_size + max_overflow`. -/
def PoolConfig.capacity (cfg : PoolConfig) : Nat := cfg.coreSize + cfg.maxOverflow

/-- Modelled from the spec: a Connection handle with its creation timestamp
(§3 Connection attributes). -/
structure Conn where
  id : Nat
  createdAt : Nat
deriving Repr, DecidableEq

/-- Age of a connection at time `now` (seconds, truncated subtraction). -/
def Conn.age (c : Conn) (now : Nat) : Nat := now - c.createdAt

/-- A connection is expired when its age exceeds `max_lifetime`. -/
def Conn.expired (c : Conn) (now lifetime : Nat) : Prop := lifetime < c.age now

instance (c : Conn) (now lifetime : Nat) : Decidable (c.expired now lifetime) :=
  inferInstanceAs (Decidable (lifetime < now - c.createdAt))

/-- Modelled from the spec: a pending checkout request with its enqueue
timestamp (§3 Waiter). `wid` identifies the requester. -/
structure Waiter where
  wid : Nat
  enqueuedAt : Nat
deriving Repr, DecidableEq

/-- A connection currently checked out, together with the requester
holding it. -/
structure Held where
  conn : Conn
  holder : Nat
deriving Repr, DecidableEq

/-- Modelled from the spec: the pool state — idle set, checked-out set,
FIFO waiter queue, id supply for fresh connections, closed flag (§3). -/
structure PoolState where
  config : PoolConfig
  idle : List Conn
  held : List Held
  waiters : List Waiter
  nextConnId : Nat
  closed : Bool
deriving Repr, DecidableEq

/-- Live (created-and-not-destroyed) connections: idle plus checked out. -/
def activeConnections (st : PoolState) : Nat := st.idle.length + st.held.length

/-- The empty pool for a given configuration. -/
def initState (cfg : PoolConfig) : PoolState :=
  { config := cfg
    idle := []
    held := []
    waiters := []
    nextConnId := 0
    closed := false }

/-- Scan the idle set for a non-expired connection; expired connections
encountered on the way are destroyed (lazy replacement, spec §3).
Returns the connection found and the remaining idle set. -/
def findFresh (now lifetime : Nat) : List Conn → Option (Conn × List Conn)
  | [] => none
  | c :: rest =>
    if c.expired now lifetime then findFresh now lifetime rest
    else some (c, rest)

/-- Outcome of a `checkout` call (spec §4.1). -/
inductive CheckoutResult where
  /-- A connection was handed to the requester. -/
  | granted (c : Conn)
  /-- The pool is saturated; the requester was enqueued as a Waiter. -/
  | enqueued (w : Waiter)
  /-- The connection factory failed: `ConnectionCreateError`. -/
  | createError
  /-- The pool was shut down: `PoolClosedError`. -/
  | poolClosed
deriving Repr, DecidableEq

/-- Modelled from the spec: `checkout()` (§4.1).  If the pool is closed,
fail with `PoolClosedError`.  If an idle non-expired connection exists,
return it immediately (expired ones scanned over are destroyed lazily).
Else if `active_connections < core_size + max_overflow`, create a new
connection via the factory (`factoryOk` tells whether the single factory
attempt succeeds; on failure `ConnectionCreateError` propagates with the
pool state untouched).  Else enqueue the requester as a Waiter at the
tail of the FIFO queue. -/
def checkout (st : PoolState) (requester now : Nat) (factoryOk : Bool) :
    CheckoutResult × PoolState :=
  if st.closed then (.poolClosed, st)
  else
    match findFresh now st.config.maxLifetime st.idle with
    | some (c, rest) =>
        (.granted c, { st with idle := rest, held := ⟨c, requester⟩ :: st.held })
    | none =>
        if st.held.length < st.config.capacity then
          if factoryOk then
            let c : Conn := ⟨st.nextConnId, now⟩
            (.granted c,
             { st with
               idle := []
               held := ⟨c, requester⟩ :: st.held
               nextConnId := st.nextConnId + 1 })
          else (.createError, st)
        else
          (.enqueued ⟨requester, now⟩,
           { st with
             idle := []
             waiters := st.waiters ++ [⟨requester, now⟩] })

/-- Outcome of a `checkin` call (spec §4.1). -/
inductive CheckinResult where
  /-- The connection was destroyed (over-age, or pool closed). -/
  | destroyed
  /-- The connection was handed directly to the given waiter. -/
  | handedTo (w : Waiter)
  /-- The connection was returned to the idle set. -/
  | idled
  /-- The connection was not checked out of this pool: no-op. -/
  | notHeld
deriving Repr, DecidableEq

/-- First held entry for the given connection id, if any. -/
def findHeld (cid : Nat) : List Held → Option Held
  | [] => none
  | h :: hs => if h.conn.id = cid then some h else findHeld cid hs

/-- Remove the first held entry for the given connection id. -/
def removeHeld (cid : Nat) : List Held → List Held
  | [] => []
  | h :: hs => if h.conn.id = cid then hs else h :: removeHeld cid hs

/-- Modelled from the spec: `checkin(connection)` (§4.1).  Only a
connection previously obtained from `checkout` may be checked in.  If the
pool is closed, destroy it.  If its age exceeds `max_lifetime`, destroy
it and decrement `active_connections` (do not return it to the idle set).
Otherwise, if any Waiter is pending, hand it directly to the
longest-waiting Waiter (head of the FIFO queue), waking exactly that one;
else place it in the idle set. -/
def checkin (st : PoolState) (cid now : Nat) : CheckinResult × PoolState :=
  match findHeld cid st.held with
  | none => (.notHeld, st)
  | some h =>
    let rest := removeHeld cid st.held
    if st.closed then (.destroyed, { st with held := rest })
    else if h.conn.expired now st.config.maxLifetime then
      (.destroyed, { st with held := rest })
    else
      match st.waiters with
      | [] => (.idled, { st with held := rest, idle := h.conn :: st.idle })
      | w :: ws =>
          (.handedTo w, { st with held := ⟨h.conn, w.wid⟩ :: rest, waiters := ws })

/-- Outcome of a waiter's deadline check. -/
inductive TimeoutResult where
  /-- The deadline elapsed: the waiter is removed and `PoolTimeoutError`
  is delivered to it. -/
  | timedOut
  /-- The deadline has not elapsed; the waiter keeps waiting. -/
  | stillWaiting
  /-- No such waiter is enqueued. -/
  | notWaiting
deriving Repr, DecidableEq

/-- First waiter with the given id, if any. -/
def findWaiter (wid : Nat) : List Waiter → Option Waiter
  | [] => none
  | w :: ws => if w.wid = wid then some w else findWaiter wid ws

/-- Remove the first waiter with the given id. -/
def removeWaiter (wid : Nat) : List Waiter → List Waiter
  | [] => []
  | w :: ws => if w.wid = wid then ws else w :: removeWaiter wid ws

/-- Modelled from the spec: expiry of a Waiter's deadline (§3 Waiter
lifecycle).  If `checkout_timeout` has elapsed since the waiter was
enqueued, the waiter is resolved as a failure (`PoolTimeoutError`) and
leaves the queue; no connection is created or destroyed. -/
def waiterTimeout (st : PoolState) (wid now : Nat) : TimeoutResult × PoolState :=
  match findWaiter wid st.waiters with
  | none => (.notWaiting, st)
  | some w =>
    if st.config.checkoutTimeout ≤ now - w.enqueuedAt then
      (.timedOut, { st with waiters := removeWaiter wid st.waiters })
    else (.stillWaiting, st)

/-- Modelled from the spec: `shutdown()` (§4.1).  Destroys all idle
connections immediately and marks the pool closed; checked-out
connections are destroyed on their next `checkin`. -/
def shutdown (st : PoolState) : PoolState :=
  { st with idle := [], closed := true }

/-- One pool event: the operations a client (or the clock) can perform. -/
inductive Event where
  | checkout (requester now : Nat) (factoryOk : Bool)
  | checkin (cid now : Nat)
  | timeout (wid now : Nat)
  | shutdown
deriving Repr, DecidableEq

/-- State transition for one event (results discarded). -/
def step (st : PoolState) : Event → PoolState
  | .checkout r now ok => (checkout st r now ok).2
  | .checkin cid now => (checkin st cid now).2
  | .timeout w now => (waiterTimeout st w now).2
  | .shutdown => shutdown st

/-- Run a sequence of events from a state. -/
def run (st : PoolState) (evs : List Event) : PoolState := evs.foldl step st

/-- Connection ids of all live connections (idle first, then held). -/
def connIds (st : PoolState) : List Nat :=
  st.idle.map Conn.id ++ st.held.map (fun h => h.conn.id)

/-- The pool's structural invariant: live connection ids are pairwise
distinct, and every live id is below the id supply. -/
def PoolInv (st : PoolState) : Prop :=
  (connIds st).Nodup ∧ ∀ i ∈ connIds st, i < st.nextConnId

theorem findFresh_some (now lt : Nat) :
    ∀ (l rest : List Conn) (c : Conn),
      findFresh now lt l = some (c, rest) →
      ∃ pre, l = pre ++ c :: rest ∧ (∀ d ∈ pre, d.expired now lt) ∧
        ¬ c.expired now lt
  | [], rest, c => by simp [findFresh]
  | d :: ds, rest, c => by
    simp only [findFresh]
    split
    · intro h
      obtain ⟨pre, hpre, hexp, hc⟩ := findFresh_some now lt ds rest c h
      refine ⟨d :: pre, by simp [hpre], ?_, hc⟩
      intro e he
      rcases List.mem_cons.mp he with rfl | he
      · assumption
      · exact hexp e he
    · intro h
      obtain ⟨rfl, rfl⟩ := Prod.mk.injEq .. ▸ Option.some.injEq .. ▸ h
      exact ⟨[], rfl, by simp, by assumption⟩

theorem findFresh_none (now lt : Nat) :
    ∀ l : List Conn, findFresh now lt l = none → ∀ c ∈ l, c.expired now lt
  | [] => by simp
  | d :: ds => by
    simp only [findFresh]
    split
    · intro h c hc
      rcases List.mem_cons.mp hc with rfl | hc
      · assumption
      · exact findFresh_none now lt ds h c hc
    · intro h
      simp at h

theorem findHeld_decomp (cid : Nat) :
    ∀ (hs : List Held) (h : Held), findHeld cid hs = some h →
      ∃ pre post, hs = pre ++ h :: post ∧ removeHeld cid hs = pre ++ post ∧
        (∀ g ∈ pre, g.conn.id ≠ cid) ∧ h.conn.id = cid
  | [], h => by simp [findHeld]
  | g :: gs, h => by
    by_cases hgc : g.conn.id = cid
    · simp only [findHeld, removeHeld, if_pos hgc]
      intro hg
      obtain rfl := Option.some.injEq .. ▸ hg
      exact ⟨[], gs, rfl, rfl, by simp, hgc⟩
    · simp only [findHeld, removeHeld, if_neg hgc]
      intro hg
      obtain ⟨pre, post, hdec, hrem, hpre, hid⟩ := findHeld_decomp cid gs h hg
      refine ⟨g :: pre, post, by simp [hdec], by simp [hrem], ?_, hid⟩
      intro e he
      rcases List.mem_cons.mp he with rfl | he
      · exact hgc
      · exact hpre e he

theorem findWaiter_decomp (wid : Nat) :
    ∀ (ws : List Waiter) (w : Waiter), findWaiter wid ws = some w →
      ∃ pre post, ws = pre ++ w :: post ∧ removeWaiter wid ws = pre ++ post ∧
        w.wid = wid
  | [], w => by simp [findWaiter]
  | v :: vs, w => by
    by_cases hvw : v.wid = wid
    · simp only [findWaiter, removeWaiter, if_pos hvw]
      intro hv
      obtain rfl := Option.some.injEq .. ▸ hv
      exact ⟨[], vs, rfl, rfl, hvw⟩
    · simp only [findWaiter, removeWaiter, if_neg hvw]
      intro hv
      obtain ⟨pre, post, hdec, hrem, hid⟩ := findWaiter_decomp wid vs w hv
      exact ⟨v :: pre, post, by simp [hdec], by simp [hrem], hid⟩

open List

theorem PoolInv.preserve (st' st : PoolState) (hI : PoolInv st)
    (hsub : connIds st' <+~ connIds st)
    (hn : st.nextConnId ≤ st'.nextConnId) : PoolInv st' := by
  obtain ⟨l, hperm, hsl⟩ := hsub
  refine ⟨hperm.nodup (Nodup.sublist hsl hI.1), fun i hi => ?_⟩
  exact lt_of_lt_of_le (hI.2 i (Subperm.subset ⟨l, hperm, hsl⟩ hi)) hn

theorem step_config (st : PoolState) (e : Event) : (step st e).config = st.config := by
  cases e <;> simp only [step, checkout, checkin, waiterTimeout, shutdown] <;>
    (repeat' split) <;> rfl

theorem step_active (st : PoolState) (e : Event)
    (h : activeConnections st ≤ st.config.capacity) :
    activeConnections (step st e) ≤ st.config.capacity := by
  cases e with
  | checkout r now ok =>
    simp only [step, checkout]
    split
    · exact h
    · split
      · rename_i c rest hfind
        obtain ⟨pre, hdec, -, -⟩ := findFresh_some _ _ _ _ _ hfind
        simp only [activeConnections, hdec, List.length_append,
          List.length_cons] at h ⊢
        omega
      · split
        · split
          · rename_i hlt _
            simp only [activeConnections, List.length_nil, List.length_cons]
            omega
          · exact h
        · simp only [activeConnections, List.length_nil] at h ⊢
          omega
  | checkin cid now =>
    simp only [step, checkin]
    split
    · exact h
    · rename_i hconn hfind
      obtain ⟨pre, post, hdec, hrem, -, -⟩ := findHeld_decomp _ _ _ hfind
      rw [hdec] at hrem
      split
      · simp only [activeConnections, hdec, hrem, List.length_append,
          List.length_cons] at h ⊢
        omega
      · split
        · simp only [activeConnections, hdec, hrem, List.length_append,
            List.length_cons] at h ⊢
          omega
        · split
          · simp only [activeConnections, hdec, hrem, List.length_append,
              List.length_cons] at h ⊢
            omega
          · simp only [activeConnections, hdec, hrem, List.length_append,
              List.length_cons] at h ⊢
            omega
  | timeout w now =>
    simp only [step, waiterTimeout]
    (repeat' split) <;> exact h
  | shutdown =>
    simp only [step, shutdown, activeConnections, List.length_nil] at h ⊢
    omega

theorem step_inv (st : PoolState) (e : Event) (h : PoolInv st) : PoolInv (step st e) := by
  cases e with
  | checkout r now ok =>
    simp only [step, checkout]
    split
    · exact h
    · split
      · rename_i c rest hfind
        obtain ⟨pre, hdec, -, -⟩ := findFresh_some _ _ _ _ _ hfind
        refine PoolInv.preserve _ _ h ?_ le_rfl
        refine ⟨(c.id :: rest.map Conn.id) ++ st.held.map (fun g => g.conn.id),
          ?_, ?_⟩
        · simp only [connIds, List.map_cons, List.cons_append]
          exact perm_middle.symm
        · simp only [connIds, hdec, List.map_append, List.map_cons]
          exact Sublist.append_right (sublist_append_right _ _) _
      · split
        · split
          · rename_i hlt hok
            constructor
            · simp only [connIds, List.map_cons, List.map_nil, List.nil_append]
              refine List.nodup_cons.mpr ⟨fun hmem => ?_, ?_⟩
              · exact absurd (h.2 st.nextConnId
                  (List.mem_append_right _ hmem)) (lt_irrefl _)
              · exact Nodup.sublist (sublist_append_right _ _) h.1
            · intro i hi
              simp only [connIds, List.map_cons, List.map_nil,
                List.nil_append, List.mem_cons] at hi
              rcases hi with rfl | hi
              · exact Nat.lt_succ_self _
              · exact Nat.lt_succ_of_lt (h.2 i (List.mem_append_right _ hi))
          · exact h
        · refine PoolInv.preserve _ _ h ?_ le_rfl
          simp only [connIds, List.map_nil, List.nil_append]
          exact (sublist_append_right _ _).subperm
  | checkin cid now =>
    simp only [step, checkin]
    split
    · exact h
    · rename_i hc hfind
      obtain ⟨pre, post, hdec, hrem, -, -⟩ := findHeld_decomp _ _ _ hfind
      rw [hdec] at hrem
      split
      · refine PoolInv.preserve _ _ h ?_ le_rfl
        simp only [connIds, hdec, hrem, List.map_append, List.map_cons]
        exact (Sublist.append_left
          (Sublist.append_left (sublist_cons_self _ _) _) _).subperm
      · split
        · refine PoolInv.preserve _ _ h ?_ le_rfl
          simp only [connIds, hdec, hrem, List.map_append, List.map_cons]
          exact (Sublist.append_left
            (Sublist.append_left (sublist_cons_self _ _) _) _).subperm
        · split
          · refine PoolInv.preserve _ _ h ?_ le_rfl
            refine Perm.subperm ?_
            simp only [connIds, hdec, hrem, List.map_append, List.map_cons,
              List.cons_append]
            exact ((perm_middle.append_left _).trans perm_middle).symm
          · refine PoolInv.preserve _ _ h ?_ le_rfl
            refine Perm.subperm ?_
            simp only [connIds, hdec, hrem, List.map_append, List.map_cons]
            exact perm_middle.symm.append_left _
  | timeout w now =>
    simp only [step, waiterTimeout]
    (repeat' split) <;> exact h
  | shutdown =>
    refine PoolInv.preserve _ _ h ?_ le_rfl
    simp only [step, shutdown, connIds, List.map_nil, List.nil_append]
    exact (sublist_append_right _ _).subperm

theorem findFresh_eq_none (now lt : Nat) (l : List Conn) :
    findFresh now lt l = none ↔ ∀ c ∈ l, c.expired now lt := by
  constructor
  · exact findFresh_none now lt l
  · intro h
    induction l with
    | nil => rfl
    | cons c cs ih =>
      simp only [findFresh, if_pos (h c (List.mem_cons_self c cs))]
      exact ih fun d hd => h d (List.mem_cons_of_mem c hd)

theorem run_config (st : PoolState) (evs : List Event) :
    (run st evs).config = st.config := by
  induction evs generalizing st with
  | nil => rfl
  | cons e evs ih =>
    show (run (step st e) evs).config = st.config
    rw [ih, step_config]

theorem run_active (st : PoolState) (evs : List Event)
    (h : activeConnections st ≤ st.config.capacity) :
    activeConnections (run st evs) ≤ st.config.capacity := by
  induction evs generalizing st with
  | nil => exact h
  | cons e evs ih =>
    show activeConnections (run (step st e) evs) ≤ st.config.capacity
    have h1 : activeConnections (step st e) ≤ (step st e).config.capacity := by
      rw [step_config]; exact step_active st e h
    have h2 := ih (step st e) h1
    rwa [step_config] at h2

theorem run_inv (st : PoolState) (evs : List Event) (h : PoolInv st) :
    PoolInv (run st evs) := by
  induction evs generalizing st with
  | nil => exact h
  | cons e evs ih => exact ih (step st e) (step_inv st e h)

end Pool

namespace ConnectTcp

/-- A process environment: maps a variable name to its value, if set.
`os.environ[k]` raises `KeyError k` when `k` is unset. -/
def Env : Type := String → Option String

/-- Embeds `os.environ[key]`: the value when set, `KeyError key` otherwise. -/
def environGet (env : Env) (key : String) : Except String String :=
  match env key with
  | some v => Except.ok v
  | none => Except.error key

/-- Embeds the `sqlalchemy.engine.url.URL.create(...)` call's keyword
arguments as passed by `connect_tcp_socket` (external constructor,
modelled as a record of the arguments it receives; `port` is passed the
raw string with no integer conversion). -/
structure URLRecord where
  drivername : String
  username : String
  password : String
  host : String
  port : String
  database : String
deriving Repr, DecidableEq

/-- Embeds the `sqlalchemy.create_engine(...)` call as performed by
`connect_tcp_socket`: the URL plus the pool policy keyword arguments
(external constructor, modelled as a record of its arguments). -/
structure EngineRecord where
  url : URLRecord
  pool_size : Nat
  max_overflow : Nat
  pool_timeout : Nat
  pool_recycle : Nat
deriving Repr, DecidableEq

/-- Embeds `connect_tcp_socket()` from `examples/python/connect_tcp.py`:
reads the five environment variables by direct indexing (in source
order), then builds the engine with the URL from those values and the
fixed pool constants.  A missing variable raises `KeyError` before any
pool construction, which the embedding returns as `Except.error`. -/
def connect_tcp_socket (env : Env) : Except String EngineRecord :=
  match environGet env "INSTANCE_HOST" with
  | .error k => .error k
  | .ok instance_host =>
  match environGet env "DB_USER" with
  | .error k => .error k
  | .ok db_user =>
  match environGet env "DB_PASS" with
  | .error k => .error k
  | .ok db_pass =>
  match environGet env "DB_NAME" with
  | .error k => .error k
  | .ok db_name =>
  match environGet env "DB_PORT" with
  | .error k => .error k
  | .ok db_port =>
    .ok
      { url :=
          { drivername := "postgresql+pg8000"
            username := db_user
            password := db_pass
            host := instance_host
            port := db_port
            database := db_name }
        pool_size := 5
        max_overflow := 2
        pool_timeout := 30
        pool_recycle := 1800 }

end ConnectTcp

open Pool ConnectTcp

/-- C1: for every sequence of checkout/checkin (and timeout/shutdown)
operations on a pool configured with `core_size` and `max_overflow`, the
number of active (created-and-not-destroyed) connections never exceeds
`core_size + max_overflow`; with the configured values pool_size=5 and
max_overflow=2 the total number of concurrent connections is at most 7. -/
theorem claim_C1_capacity_bound :
    (∀ (cfg : PoolConfig) (evs : List Event),
      activeConnections (run (initState cfg) evs) ≤
        cfg.coreSize + cfg.maxOverflow) ∧
    (∀ evs : List Event,
      activeConnections (run (initState ⟨5, 2, 30, 1800⟩) evs) ≤ 7) := by
  have key : ∀ (cfg : PoolConfig) (evs : List Event),
      activeConnections (run (initState cfg) evs) ≤
        cfg.coreSize + cfg.maxOverflow := by
    intro cfg evs
    have h0 : activeConnections (initState cfg) ≤
        (initState cfg).config.capacity := by
      simp [activeConnections, initState]
    simpa [initState, PoolConfig.capacity] using
      run_active (initState cfg) evs h0
  exact ⟨key, fun evs => key ⟨5, 2, 30, 1800⟩ evs⟩

/-- C3: in every reachable pool state, no connection is held by two
requesters at once: the checked-out entries carry pairwise distinct
connections, and no checked-out connection is simultaneously in the idle
set (so a connection returned by checkout is not concurrently available
to any other checkout until it is checked in). -/
theorem claim_C3_no_double_hold :
    ∀ (cfg : PoolConfig) (evs : List Event),
      ((run (initState cfg) evs).held.map (fun g => g.conn.id)).Nodup ∧
      ∀ c ∈ (run (initState cfg) evs).idle,
        ∀ g ∈ (run (initState cfg) evs).held, c.id ≠ g.conn.id := by
  intro cfg evs
  have hInv := run_inv (initState cfg) evs (by simp [PoolInv, connIds, initState])
  obtain ⟨hnd, -⟩ := hInv
  rw [connIds, List.nodup_append] at hnd
  obtain ⟨h1, h2, h3⟩ := hnd
  refine ⟨h2, fun c hc g hg heq => ?_⟩
  exact h3 (List.mem_map_of_mem _ hc) (heq ▸ List.mem_map_of_mem _ hg)

/-- C1 witness: a concrete one-checkout trace on the configured pool has
at most 7 active connections. -/
theorem claim_C1_capacity_bound_witness :
    activeConnections (run (initState ⟨5, 2, 30, 1800⟩)
      [.checkout 1 0 true]) ≤ 7 :=
  claim_C1_capacity_bound.2 [.checkout 1 0 true]

/-- C3 witness: after a concrete one-checkout trace the held connection
ids are pairwise distinct. -/
theorem claim_C3_no_double_hold_witness :
    ((run (initState ⟨5, 2, 30, 1800⟩) [.checkout 1 0 true]).held.map
      (fun g => g.conn.id)).Nodup :=
  (claim_C3_no_double_hold ⟨5, 2, 30, 1800⟩ [.checkout 1 0 true]).1

/-- C2: checkout follows exactly this decision order: if an idle,
non-expired connection exists one is returned immediately; otherwise, if
the live-connection count (after the expired idle connections are lazily
destroyed) is below `core_size + max_overflow`, a new connection is
created via the factory and returned; otherwise the caller is enqueued
at the tail of the Waiter queue. -/
theorem claim_C2_checkout_order (st : PoolState) (r now : Nat) (ok : Bool)
    (hopen : st.closed = false) :
    ((∃ c ∈ st.idle, ¬ c.expired now st.config.maxLifetime) →
      ∃ c, (checkout st r now ok).1 = .granted c ∧ c ∈ st.idle ∧
        ¬ c.expired now st.config.maxLifetime) ∧
    ((∀ c ∈ st.idle, c.expired now st.config.maxLifetime) →
      st.held.length < st.config.capacity → ok = true →
      (checkout st r now ok).1 = .granted ⟨st.nextConnId, now⟩) ∧
    ((∀ c ∈ st.idle, c.expired now st.config.maxLifetime) →
      st.config.capacity ≤ st.held.length →
      (checkout st r now ok).1 = .enqueued ⟨r, now⟩ ∧
      (checkout st r now ok).2.waiters = st.waiters ++ [⟨r, now⟩]) := by
  refine ⟨?_, ?_, ?_⟩
  · rintro ⟨c0, hc0, hfresh⟩
    cases hf : findFresh now st.config.maxLifetime st.idle with
    | none => exact absurd (findFresh_none _ _ _ hf c0 hc0) hfresh
    | some p =>
      obtain ⟨c, rest⟩ := p
      obtain ⟨pre, hdec, -, hnexp⟩ := findFresh_some _ _ _ _ _ hf
      refine ⟨c, ?_, ?_, hnexp⟩
      · simp [checkout, hopen, hf]
      · rw [hdec]
        exact List.mem_append_right _ (List.mem_cons_self _ _)
  · intro hall hcap hok
    have hf := (findFresh_eq_none _ _ _).mpr hall
    subst hok
    simp [checkout, hopen, hf, hcap]
  · intro hall hcap
    have hf := (findFresh_eq_none _ _ _).mpr hall
    have hnot := Nat.not_lt.mpr hcap
    constructor <;> simp [checkout, hopen, hf, hnot]

/-- C2 witness: on an empty open pool with capacity 7, a checkout with a
working factory creates and returns connection 0. -/
theorem claim_C2_checkout_order_witness :
    (checkout (initState ⟨5, 2, 30, 1800⟩) 1 0 true).1 = .granted ⟨0, 0⟩ :=
  (claim_C2_checkout_order _ 1 0 true rfl).2.1 (by simp [initState])
    (by decide) rfl

/-- C4: a connection whose age exceeds `max_lifetime` is never returned
to a requester: checking in an over-age connection destroys it (it is
removed from the pool, not placed in the idle set, and
`active_connections` drops by one); age is re-checked at hand-out time,
so checkout never grants an expired connection; and with
pool_recycle=1800, a connection checked out at t=0 and checked in at
t=1801 is destroyed and not reused by the next checkout. -/
theorem claim_C4_lifetime_recycle :
    (∀ (st : PoolState) (cid now : Nat) (hc : Held),
      findHeld cid st.held = some hc →
      hc.conn.expired now st.config.maxLifetime →
      st.closed = false →
      (checkin st cid now).1 = .destroyed ∧
      (checkin st cid now).2.idle = st.idle ∧
      (checkin st cid now).2.held = removeHeld cid st.held ∧
      activeConnections (checkin st cid now).2 + 1 = activeConnections st) ∧
    (∀ (st : PoolState) (r now : Nat) (ok : Bool) (c : Conn),
      (checkout st r now ok).1 = .granted c →
      ¬ c.expired now st.config.maxLifetime) ∧
    ((checkin ((checkout (initState ⟨5, 2, 30, 1800⟩) 1 0 true).2) 0 1801).1
        = .destroyed ∧
     (checkout ((checkin ((checkout (initState ⟨5, 2, 30, 1800⟩) 1 0 true).2)
        0 1801).2) 2 1801 true).1 = .granted ⟨1, 1801⟩) := by
  refine ⟨?_, ?_, by decide⟩
  · intro st cid now hc hfind hexp hopen
    obtain ⟨pre, post, hdec, hrem, -, -⟩ := findHeld_decomp _ _ _ hfind
    have e1 : checkin st cid now =
        (.destroyed, { st with held := removeHeld cid st.held }) := by
      simp [checkin, hfind, hopen, hexp]
    refine ⟨by rw [e1], by rw [e1], by rw [e1], ?_⟩
    rw [e1]
    simp only [activeConnections]
    rw [hrem, hdec]
    simp only [List.length_append, List.length_cons]
    omega
  · intro st r now ok c hg
    by_cases hcl : st.closed = true
    · simp [checkout, hcl] at hg
    · have hopen : st.closed = false := by
        revert hcl; cases st.closed <;> simp
      cases hf : findFresh now st.config.maxLifetime st.idle with
      | some p =>
        obtain ⟨c', rest⟩ := p
        obtain ⟨pre, hdec, -, hnexp⟩ := findFresh_some _ _ _ _ _ hf
        have e1 : (checkout st r now ok).1 = .granted c' := by
          simp [checkout, hopen, hf]
        rw [e1] at hg
        injection hg with h
        rw [← h]
        exact hnexp
      | none =>
        by_cases hcap : st.held.length < st.config.capacity
        · cases ok with
          | true =>
            have e1 : (checkout st r now true).1 =
                .granted ⟨st.nextConnId, now⟩ := by
              simp [checkout, hopen, hf, hcap]
            rw [e1] at hg
            injection hg with h
            rw [← h]
            simp [Conn.expired, Conn.age]
          | false => simp [checkout, hopen, hf, hcap] at hg
        · simp [checkout, hopen, hf, hcap] at hg

/-- C4 witness: checking in connection 0 (created at t=0) at t=1801 on a
pool with max_lifetime 1800 destroys it. -/
theorem claim_C4_lifetime_recycle_witness :
    (checkin
      { config := ⟨5, 2, 30, 1800⟩, idle := [], held := [⟨⟨0, 0⟩, 1⟩],
        waiters := [], nextConnId := 1, closed := false } 0 1801).1 =
      .destroyed :=
  (claim_C4_lifetime_recycle.1
    { config := ⟨5, 2, 30, 1800⟩, idle := [], held := [⟨⟨0, 0⟩, 1⟩],
      waiters := [], nextConnId := 1, closed := false }
    0 1801 ⟨⟨0, 0⟩, 1⟩ (by decide) (by decide) rfl).1

/-- C5: when the pool is saturated, checkout enqueues the caller without
creating any connection; a waiter whose `checkout_timeout` has elapsed
fails with `PoolTimeoutError` while the live connections are exactly as
before (nothing was silently created); and before the deadline the
waiter is still blocked, so the wait lasts no longer than
`checkout_timeout`. -/
theorem claim_C5_checkout_timeout :
    (∀ (st : PoolState) (r now : Nat) (ok : Bool),
      st.closed = false →
      (∀ c ∈ st.idle, c.expired now st.config.maxLifetime) →
      st.config.capacity ≤ st.held.length →
      (checkout st r now ok).1 = .enqueued ⟨r, now⟩ ∧
      (checkout st r now ok).2.held = st.held) ∧
    (∀ (st : PoolState) (wid now : Nat) (w : Waiter),
      findWaiter wid st.waiters = some w →
      st.config.checkoutTimeout ≤ now - w.enqueuedAt →
      (waiterTimeout st wid now).1 = .timedOut ∧
      (waiterTimeout st wid now).2.idle = st.idle ∧
      (waiterTimeout st wid now).2.held = st.held ∧
      activeConnections (waiterTimeout st wid now).2 = activeConnections st) ∧
    (∀ (st : PoolState) (wid now : Nat) (w : Waiter),
      findWaiter wid st.waiters = some w →
      now - w.enqueuedAt < st.config.checkoutTimeout →
      (waiterTimeout st wid now).1 = .stillWaiting) := by
  refine ⟨?_, ?_, ?_⟩
  · intro st r now ok hopen hall hcap
    have hf := (findFresh_eq_none _ _ _).mpr hall
    have hnot := Nat.not_lt.mpr hcap
    constructor <;> simp [checkout, hopen, hf, hnot]
  · intro st wid now w hfind hle
    refine ⟨?_, ?_, ?_, ?_⟩ <;> simp [waiterTimeout, hfind, hle, activeConnections]
  · intro st wid now w hfind hlt
    have hnot := Nat.not_le.mpr hlt
    simp [waiterTimeout, hfind, hnot]

/-- C5 witness: a waiter enqueued at t=0 on a pool with
checkout_timeout 30 times out at t=30. -/
theorem claim_C5_checkout_timeout_witness :
    (waiterTimeout
      { config := ⟨5, 2, 30, 1800⟩, idle := [], held := [],
        waiters := [⟨1, 0⟩], nextConnId := 0, closed := false } 1 30).1 =
      .timedOut :=
  (claim_C5_checkout_timeout.2.1
    { config := ⟨5, 2, 30, 1800⟩, idle := [], held := [],
      waiters := [⟨1, 0⟩], nextConnId := 0, closed := false }
    1 30 ⟨1, 0⟩ (by decide) (by decide)).1

/-- C6: FIFO fairness of waiter hand-off: checkout enqueues new waiters
at the tail of the queue; a connection freed by checkin is handed
directly to the head — the longest-waiting — waiter, bypassing the idle
set, and exactly that one waiter is woken; concretely, with waiter A
enqueued before waiter B, two successive checkins serve A first, then
B. -/
theorem claim_C6_fifo_handoff :
    (∀ (st : PoolState) (r now : Nat) (ok : Bool),
      st.closed = false →
      (∀ c ∈ st.idle, c.expired now st.config.maxLifetime) →
      st.config.capacity ≤ st.held.length →
      (checkout st r now ok).2.waiters = st.waiters ++ [⟨r, now⟩]) ∧
    (∀ (st : PoolState) (cid now : Nat) (hc : Held) (w : Waiter)
        (ws : List Waiter),
      findHeld cid st.held = some hc →
      st.closed = false →
      ¬ hc.conn.expired now st.config.maxLifetime →
      st.waiters = w :: ws →
      (checkin st cid now).1 = .handedTo w ∧
      (checkin st cid now).2.waiters = ws ∧
      (checkin st cid now).2.idle = st.idle ∧
      (checkin st cid now).2.held =
        ⟨hc.conn, w.wid⟩ :: removeHeld cid st.held) ∧
    (let st0 := run (initState ⟨1, 0, 30, 1800⟩)
        [.checkout 1 0 true, .checkout 2 1 true, .checkout 3 2 true]
     st0.waiters = [⟨2, 1⟩, ⟨3, 2⟩] ∧
     (checkin st0 0 3).1 = .handedTo ⟨2, 1⟩ ∧
     (checkin (checkin st0 0 3).2 0 4).1 = .handedTo ⟨3, 2⟩) := by
  refine ⟨?_, ?_, by decide⟩
  · intro st r now ok hopen hall hcap
    have hf := (findFresh_eq_none _ _ _).mpr hall
    have hnot := Nat.not_lt.mpr hcap
    simp [checkout, hopen, hf, hnot]
  · intro st cid now hc w ws hfind hopen hnexp hw
    refine ⟨?_, ?_, ?_, ?_⟩ <;> simp [checkin, hfind, hopen, hnexp, hw]

/-- C6 witness: with waiters 2 (enqueued at t=1) and 3 (enqueued at t=2)
pending, checking connection 0 in at t=3 hands it to waiter 2, the head
of the queue. -/
theorem claim_C6_fifo_handoff_witness :
    (checkin
      { config := ⟨1, 0, 30, 1800⟩, idle := [], held := [⟨⟨0, 0⟩, 1⟩],
        waiters := [⟨2, 1⟩, ⟨3, 2⟩], nextConnId := 1, closed := false }
      0 3).1 = .handedTo ⟨2, 1⟩ :=
  (claim_C6_fifo_handoff.2.1
    { config := ⟨1, 0, 30, 1800⟩, idle := [], held := [⟨⟨0, 0⟩, 1⟩],
      waiters := [⟨2, 1⟩, ⟨3, 2⟩], nextConnId := 1, closed := false }
    0 3 ⟨⟨0, 0⟩, 1⟩ ⟨2, 1⟩ [⟨3, 2⟩] (by decide) rfl (by decide) rfl).1

/-- C7: after shutdown all idle connections are destroyed immediately
and the pool is marked closed; every connection checked out at shutdown
time is destroyed on its next checkin rather than reused; every
subsequent checkout fails with `PoolClosedError` leaving the state
unchanged; the pool stays closed under all later operations; and in the
spec's scenario — shutdown with two connections checked out — both are
destroyed on checkin and a later checkout reports `PoolClosedError`. -/
theorem claim_C7_shutdown :
    (∀ st : PoolState, (shutdown st).idle = [] ∧ (shutdown st).closed = true ∧
      (shutdown st).held = st.held ∧
      activeConnections (shutdown st) = st.held.length) ∧
    (∀ (st : PoolState) (cid now : Nat) (hc : Held),
      findHeld cid st.held = some hc → st.closed = true →
      (checkin st cid now).1 = .destroyed ∧
      (checkin st cid now).2.idle = st.idle ∧
      (checkin st cid now).2.held = removeHeld cid st.held) ∧
    (∀ (st : PoolState) (r now : Nat) (ok : Bool), st.closed = true →
      (checkout st r now ok).1 = .poolClosed ∧ (checkout st r now ok).2 = st) ∧
    (∀ (st : PoolState) (e : Event), st.closed = true →
      (step st e).closed = true) ∧
    (let st0 := run (initState ⟨5, 2, 30, 1800⟩)
        [.checkout 1 0 true, .checkout 2 0 true, .shutdown]
     st0.closed = true ∧ st0.held.length = 2 ∧
     (checkin st0 0 1).1 = .destroyed ∧
     (checkin (checkin st0 0 1).2 1 1).1 = .destroyed ∧
     activeConnections (checkin (checkin st0 0 1).2 1 1).2 = 0 ∧
     (checkout (checkin (checkin st0 0 1).2 1 1).2 3 2 true).1 =
       .poolClosed) := by
  refine ⟨?_, ?_, ?_, ?_, by decide⟩
  · intro st
    refine ⟨rfl, rfl, rfl, ?_⟩
    simp [shutdown, activeConnections]
  · intro st cid now hc hfind hcl
    refine ⟨?_, ?_, ?_⟩ <;> simp [checkin, hfind, hcl]
  · intro st r now ok hcl
    constructor <;> simp [checkout, hcl]
  · intro st e hcl
    cases e with
    | checkout r now ok => simp [step, checkout, hcl]
    | checkin cid now =>
      simp only [step, checkin]
      split
      · exact hcl
      · simp [hcl]
    | timeout wid now =>
      simp only [step, waiterTimeout]
      (repeat' split) <;> exact hcl
    | shutdown => rfl

/-- C7 witness: a checkout on a closed pool reports `PoolClosedError`. -/
theorem claim_C7_shutdown_witness :
    (checkout
      { config := ⟨5, 2, 30, 1800⟩, idle := [], held := [], waiters := [],
        nextConnId := 0, closed := true } 1 0 true).1 = .poolClosed :=
  (claim_C7_shutdown.2.2.1
    { config := ⟨5, 2, 30, 1800⟩, idle := [], held := [], waiters := [],
      nextConnId := 0, closed := true } 1 0 true rfl).1

/-- C8: when the connection factory fails during checkout, the failure
propagates as `ConnectionCreateError`, and the pool state — in
particular `active_connections` — is exactly as before the attempt; the
single factory attempt is not retried. -/
theorem claim_C8_factory_failure (st : PoolState) (r now : Nat)
    (hopen : st.closed = false)
    (hall : ∀ c ∈ st.idle, c.expired now st.config.maxLifetime)
    (hcap : st.held.length < st.config.capacity) :
    (checkout st r now false).1 = .createError ∧
    (checkout st r now false).2 = st ∧
    activeConnections (checkout st r now false).2 = activeConnections st := by
  have hf := (findFresh_eq_none _ _ _).mpr hall
  refine ⟨?_, ?_, ?_⟩ <;> simp [checkout, hopen, hf, hcap]

/-- C8 witness: on an empty open pool with capacity 7, a checkout whose
factory attempt fails reports `ConnectionCreateError`. -/
theorem claim_C8_factory_failure_witness :
    (checkout (initState ⟨5, 2, 30, 1800⟩) 1 0 false).1 = .createError :=
  (claim_C8_factory_failure _ 1 0 rfl (by simp [initState]) (by decide)).1

/-- C9: whenever any of the five environment variables INSTANCE_HOST,
DB_USER, DB_PASS, DB_NAME, DB_PORT is unset, `connect_tcp_socket` raises
`KeyError` for an unset variable (no engine is returned, so no pool is
constructed), because each is read by direct indexing into `os.environ`
before the pool is created. -/
theorem claim_C9_missing_env (env : Env)
    (h : env "INSTANCE_HOST" = none ∨ env "DB_USER" = none ∨
      env "DB_PASS" = none ∨ env "DB_NAME" = none ∨ env "DB_PORT" = none) :
    ∃ k, connect_tcp_socket env = Except.error k ∧ env k = none := by
  cases hA : env "INSTANCE_HOST" with
  | none =>
    exact ⟨"INSTANCE_HOST", by simp [connect_tcp_socket, environGet, hA], hA⟩
  | some vA =>
  cases hB : env "DB_USER" with
  | none =>
    exact ⟨"DB_USER", by simp [connect_tcp_socket, environGet, hA, hB], hB⟩
  | some vB =>
  cases hC : env "DB_PASS" with
  | none =>
    exact ⟨"DB_PASS", by simp [connect_tcp_socket, environGet, hA, hB, hC], hC⟩
  | some vC =>
  cases hD : env "DB_NAME" with
  | none =>
    exact ⟨"DB_NAME",
      by simp [connect_tcp_socket, environGet, hA, hB, hC, hD], hD⟩
  | some vD =>
  cases hE : env "DB_PORT" with
  | none =>
    exact ⟨"DB_PORT",
      by simp [connect_tcp_socket, environGet, hA, hB, hC, hD, hE], hE⟩
  | some vE =>
    rcases h with h | h | h | h | h <;> simp_all

/-- C9 witness: in the empty environment `connect_tcp_socket` fails with
a `KeyError` for an unset variable. -/
theorem claim_C9_missing_env_witness :
    ∃ k, connect_tcp_socket (fun _ => none) = Except.error k ∧
      (fun _ : String => (none : Option String)) k = none :=
  claim_C9_missing_env (fun _ => none) (Or.inl rfl)

/-- C10: for every environment with the five variables set,
`connect_tcp_socket` deterministically returns an engine whose URL has
drivername "postgresql+pg8000" and carries the environment values
verbatim — DB_PORT passed through as the raw string, with no integer
conversion — while the pool policy parameters are the fixed constants
pool_size=5, max_overflow=2, pool_timeout=30, pool_recycle=1800. -/
theorem claim_C10_engine_url (env : Env) (vh vu vp vn vo : String)
    (h1 : env "INSTANCE_HOST" = some vh) (h2 : env "DB_USER" = some vu)
    (h3 : env "DB_PASS" = some vp) (h4 : env "DB_NAME" = some vn)
    (h5 : env "DB_PORT" = some vo) :
    connect_tcp_socket env = Except.ok
      { url :=
          { drivername := "postgresql+pg8000"
            username := vu
            password := vp
            host := vh
            port := vo
            database := vn }
        pool_size := 5
        max_overflow := 2
        pool_timeout := 30
        pool_recycle := 1800 } := by
  simp [connect_tcp_socket, environGet, h1, h2, h3, h4, h5]

/-- C10 witness: a fully populated environment yields the engine record
with the verbatim values and the constant pool parameters. -/
theorem claim_C10_engine_url_witness :
    connect_tcp_socket (fun k =>
      if k = "INSTANCE_HOST" then some "127.0.0.1"
      else if k = "DB_USER" then some "my-db-user"
      else if k = "DB_PASS" then some "my-db-password"
      else if k = "DB_NAME" then some "my-database"
      else if k = "DB_PORT" then some "5432"
      else none) = Except.ok
      { url :=
          { drivername := "postgresql+pg8000"
            username := "my-db-user"
            password := "my-db-password"
            host := "127.0.0.1"
            port := "5432"
            database := "my-database" }
        pool_size := 5
        max_overflow := 2
        pool_timeout := 30
        pool_recycle := 1800 } :=
  claim_C10_engine_url _ "127.0.0.1" "my-db-user" "my-db-password"
    "my-database" "5432" rfl rfl rfl rfl rfl
